import Mathlib

/-!
Verification of the Solaar settings-templates module
(src/lib/logitech_receiver/settings_templates.py): the settings Catalog
(_SETTINGS_TABLE), the capability-negotiation engine (check_feature and
check_feature_settings) and the specialized decoders (smart-shift threshold
mapping, adjustable-DPI list resolution, multiplatform descriptor decoding).
-/

namespace Solaar

/-- Identifiers of the HID++ 2.0 features used by the settings Catalog.
Modelled from the spec: the numeric feature-ID enumeration lives in the
external hidpp20 module (out of scope per the spec); only the identity and
distinctness of the identifiers are used by the negotiation engine. -/
inductive FeatureId where
  | HI_RES_SCROLLING
  | LOWRES_WHEEL
  | HIRES_WHEEL
  | FN_INVERSION
  | NEW_FN_INVERSION
  | K375S_FN_INVERSION
  | ADJUSTABLE_DPI
  | POINTER_SPEED
  | SMART_SHIFT
  | BACKLIGHT2
  | REPROG_CONTROLS_V4
  | KEYBOARD_DISABLE_KEYS
  | MULTIPLATFORM
  | DUALPLATFORM
  | CHANGE_HOST
  | THUMB_WHEEL
  | GESTURE_2
  deriving DecidableEq

/-- Row of the settings Catalog, as produced by the helper _S: display name
(name[0] of the display triple), optional feature identifier, whether a
register-based constructor is present, whether a feature-based constructor is
present, and the stable key (the identifier argument of _S, defaulting to the
display name with dashes replaced by underscores). -/
structure Row where
  name : String
  featureId : Option FeatureId
  hasRegisterFn : Bool
  hasFeatureFn : Bool
  key : String
  deriving DecidableEq

/-- The settings Catalog _SETTINGS_TABLE, transcribed row by row from the
source (display name, feature id, presence of registerFn, presence of
featureFn, stable key). -/
def SETTINGS_TABLE : List Row :=
  [⟨"hand-detection", none, true, false, "hand_detection"⟩,
   ⟨"smooth-scroll", none, true, false, "smooth_scroll"⟩,
   ⟨"side-scroll", none, true, false, "side_scroll"⟩,
   ⟨"hi-res-scroll", some FeatureId.HI_RES_SCROLLING, false, true, "hi_res_scroll"⟩,
   ⟨"lowres-smooth-scroll", some FeatureId.LOWRES_WHEEL, false, true, "lowres_smooth_scroll"⟩,
   ⟨"hires-smooth-invert", some FeatureId.HIRES_WHEEL, false, true, "hires_smooth_invert"⟩,
   ⟨"hires-smooth-resolution", some FeatureId.HIRES_WHEEL, false, true, "hires_smooth_resolution"⟩,
   ⟨"fn-swap", some FeatureId.FN_INVERSION, true, true, "fn_swap"⟩,
   ⟨"fn-swap", some FeatureId.NEW_FN_INVERSION, false, true, "new_fn_swap"⟩,
   ⟨"fn-swap", some FeatureId.K375S_FN_INVERSION, false, true, "k375s_fn_swap"⟩,
   ⟨"dpi", some FeatureId.ADJUSTABLE_DPI, true, true, "dpi"⟩,
   ⟨"pointer_speed", some FeatureId.POINTER_SPEED, false, true, "pointer_speed"⟩,
   ⟨"smart-shift", some FeatureId.SMART_SHIFT, false, true, "smart_shift"⟩,
   ⟨"backlight", some FeatureId.BACKLIGHT2, false, true, "backlight"⟩,
   ⟨"reprogrammable-keys", some FeatureId.REPROG_CONTROLS_V4, false, true, "reprogrammable_keys"⟩,
   ⟨"disable-keyboard-keys", some FeatureId.KEYBOARD_DISABLE_KEYS, false, true, "disable_keyboard_keys"⟩,
   ⟨"multiplatform", some FeatureId.MULTIPLATFORM, false, true, "multiplatform"⟩,
   ⟨"multiplatform", some FeatureId.DUALPLATFORM, false, true, "dualplatform"⟩,
   ⟨"change-host", some FeatureId.CHANGE_HOST, false, true, "change_host"⟩,
   ⟨"thumb-scroll-mode", some FeatureId.THUMB_WHEEL, false, true, "thumb_scroll_mode"⟩,
   ⟨"thumb-scroll-invert", some FeatureId.THUMB_WHEEL, false, true, "thumb_scroll_invert"⟩,
   ⟨"gesture2-gestures", some FeatureId.GESTURE_2, false, true, "gesture2_gestures"⟩,
   ⟨"gesture2-params", some FeatureId.GESTURE_2, false, true, "gesture2_params"⟩]

/-- Modelled from the spec: the device handle consumed by the engine
(spec section 6, external interfaces) — the advertised feature set
(none when feature metadata is unavailable, device.features is None),
the online flag, and the protocol version (none when unknown; the Python
float is modelled as a rational). -/
structure Device where
  featuresOpt : Option (List FeatureId)
  online : Bool
  protocol : Option ℚ

/-- Feature membership test, `featureId in device.features`. -/
def Device.featureList (d : Device) : List FeatureId :=
  match d.featuresOpt with
  | none => []
  | some fs => fs

/-- Outcome of invoking the feature-based constructor of a Catalog row on a
device (featureFn()(device) inside check_feature): the call raised an exception, it
returned None (validator callback found the capability not applicable), or it
returned a setting object. -/
inductive ProbeOutcome where
  | exn
  | noSetting
  | setting
  deriving DecidableEq

/-- A probe abstracts the per-row constructor invocations, which query the
device; it is a pure function of the device and the row (negotiation is
synchronous and the device is unchanged during a pass). -/
abbrev Probe := Device → Row → ProbeOutcome

/-- The setting object appended to the active settings list.  In the source
every featureFn builds its setting from the very same display triple that the
Catalog row holds, so the setting name equals the row display name. -/
structure SettingD where
  name : String
  deriving DecidableEq

/-- Probe in which every constructor invocation succeeds with a setting. -/
def probeAll : Probe := fun _ _ => ProbeOutcome.setting

/-- check_feature(device, name, featureId, featureFn): returns nothing when
the feature is not advertised, returns the detected setting, and catches any
exception from the constructor (returning nothing in that case). -/
def check_feature (dev : Device) (r : Row) (probe : Probe) : Option SettingD :=
  match r.featureId with
  | none => none
  | some f =>
    if f ∈ dev.featureList then
      match probe dev r with
      | ProbeOutcome.exn => none
      | ProbeOutcome.noSetting => none
      | ProbeOutcome.setting => some ⟨r.name⟩
    else none

/-- The feature identifier that check_feature logs in its except branch
(log.error with the featureId), none when no exception was caught. -/
def check_feature_error (dev : Device) (r : Row) (probe : Probe) : Option FeatureId :=
  match r.featureId with
  | none => none
  | some f =>
    if f ∈ dev.featureList then
      match probe dev r with
      | ProbeOutcome.exn => some f
      | ProbeOutcome.noSetting => none
      | ProbeOutcome.setting => none
    else none

/-- One iteration of the loop in check_feature_settings: a row is considered
only if it has both a feature id and a feature constructor, it is skipped when
some already-known setting has the display name of the row, and a produced setting
is appended to the list. -/
def cfs_step (dev : Device) (probe : Probe) (acc : List SettingD) (r : Row) : List SettingD :=
  if r.featureId.isSome && r.hasFeatureFn then
    if ¬ acc.any (fun s => s.name == r.name) then
      match check_feature dev r probe with
      | some s => acc ++ [s]
      | none => acc
    else acc
  else acc

/-- The row loop of check_feature_settings over a list of Catalog rows. -/
def cfs_loop (dev : Device) (probe : Probe) : List Row → List SettingD → List SettingD
  | [], acc => acc
  | r :: rs, acc => cfs_loop dev probe rs (cfs_step dev probe acc r)

/-- Python truthiness gate `device.protocol and device.protocol < 2.0`:
None and 0.0 are falsy, so the gate blocks only a reported nonzero protocol
version below 2.0. -/
def protocolBlocks : Option ℚ → Bool
  | none => false
  | some q => if q ≠ 0 ∧ q < 2 then true else false

/-- check_feature_settings(device, already_known): returns False without
touching the list when feature metadata is missing or the device is offline,
or when a reported nonzero protocol version is below 2.0; otherwise walks the
Catalog appending detected settings and returns True. -/
def check_feature_settings (dev : Device) (probe : Probe) (already_known : List SettingD) :
    Bool × List SettingD :=
  if dev.featuresOpt = none ∨ dev.online = false then (false, already_known)
  else if protocolBlocks dev.protocol then (false, already_known)
  else (true, cfs_loop dev probe SETTINGS_TABLE already_known)

/-- Smart-shift reader over the raw 3-byte record (mode, threshold, extra):
mode byte 1 (freespin) reads as the minimum 0, any other mode reads as the raw
threshold byte capped at the maximum 50.  The byte/int conversions
(bytes2int of 1-byte slices) are big-endian, from the external common module. -/
def smartShiftRead (raw : Nat × Nat × Nat) : Nat :=
  if raw.1 = 1 then 0 else min raw.2.1 50

/-- Smart-shift writer: a threshold of 0 encodes mode freespin (1), anything
else encodes mode 2; a threshold of 50 is replaced by the raw sentinel 255;
the threshold byte is duplicated, giving the 3-byte record (mode, t, t). -/
def smartShiftWrite (v : Nat) : Nat × Nat × Nat :=
  ((if v = 0 then 1 else 2), (if v = 50 then 255 else v), (if v = 50 then 255 else v))

/-- The value loop of _feature_adjustable_dpi_callback: accumulate literal
16-bit values, stop at the first zero, and for a value whose top 3 bits are
111 require (assert) that no step was seen yet and exactly one literal was
collected, recording the low 13 bits as the step.  An assertion failure is an
error (an exception in the source). -/
def dpiLoop : List Nat → List Nat → Option Nat → Except Unit (List Nat × Option Nat)
  | [], dl, st => Except.ok (dl, st)
  | v :: vs, dl, st =>
    if v = 0 then Except.ok (dl, st)
    else if v >>> 13 = 7 then
      if st = none ∧ dl.length = 1 then dpiLoop vs dl (some (v &&& 0x1fff))
      else Except.error ()
    else dpiLoop vs (dl ++ [v]) st

/-- Python range(a, b, st) for a positive step, as a list. -/
def pyRange (a b st : Nat) : List Nat :=
  (List.range ((b - a + st - 1) / st)).map (fun i => a + st * i)

/-- Postprocessing after the loop: `if step:` is Python truthiness, so a
recorded step of 0 is falsy and is silently dropped; a truthy step asserts
exactly two collected literals and expands them into range(first, last+1,
step). -/
def dpiPostprocess : List Nat × Option Nat → Except Unit (List Nat)
  | (dl, st) =>
    match st with
    | none => Except.ok dl
    | some s =>
      if s = 0 then Except.ok dl
      else
        match dl with
        | [a, b] => Except.ok (pyRange a (b + 1) s)
        | _ => Except.error ()

/-- The DPI-list resolver on the already-unpacked list of 16-bit words. -/
def parseDpiList (ws : List Nat) : Except Unit (List Nat) :=
  match dpiLoop ws [] none with
  | Except.error e => Except.error e
  | Except.ok r => dpiPostprocess r

/-- Decoding of unpack with format !7H over reply[1:15]: seven big-endian 16-bit words starting at
byte 1 of the reply. -/
def words7 (reply : List Nat) : List Nat :=
  (List.range 7).map (fun i => 256 * reply.getD (1 + 2 * i) 0 + reply.getD (2 + 2 * i) 0)

/-- _feature_adjustable_dpi_callback from the raw reply bytes: an empty reply
fails the entry assertion and a reply shorter than 15 bytes fails the
struct unpack (both are exceptions, to be caught by the engine); an empty
resulting list yields no validator (none). -/
def adjustableDpiCallback (reply : List Nat) : Except Unit (Option (List Nat)) :=
  if reply.length < 15 then Except.error ()
  else
    match parseDpiList (words7 reply) with
    | Except.error e => Except.error e
    | Except.ok dl => Except.ok (if dl = [] then none else some dl)

/-- The fixed, ordered table of (OS name, OS bit) pairs. -/
def OSS : List (String × Nat) :=
  [("Linux", 0x0400), ("MacOS", 0x2000), ("Windows", 0x0100), ("iOS", 0x4000),
   ("Android", 0x1000), ("WebOS", 0x8000), ("Chrome", 0x0800), ("WinEmb", 0x0200),
   ("Tizen", 0x0001)]

/-- _str_os_version: empty for 0, major.minor when the low byte is nonzero,
else just the major. -/
def strOsVersion (v : Nat) : String :=
  if v = 0 then ""
  else if v % 256 ≠ 0 then toString (v / 256) ++ "." ++ toString (v % 256)
  else toString (v / 256)

/-- _str_os_versions: empty when both bounds are 0, else a space and the
low-high version range. -/
def strOsVersions (low high : Nat) : String :=
  if low = 0 ∧ high = 0 then "" else " " ++ strOsVersion low ++ "-" ++ strOsVersion high

/-- One multiplatform descriptor as unpacked with format !BBHHH (the reserved byte is
dropped by the source as well). -/
structure MPDescriptor where
  platform : Nat
  osFlags : Nat
  low : Nat
  high : Nat
  deriving DecidableEq

/-- The choice-building double loop of _feature_multiplatform_callback: for
each (OS name, OS bit) of OSS in order, for each descriptor, add
(platform, formatted OS string) when the bit is in the descriptor bitmap and
neither the platform id nor the formatted string is already present.
Modelled from the spec: NamedInts membership (the external common module) is
an int test on the stored keys and a string test on the stored names, matching
the two separate `not in` checks of the source. -/
def mpChoices (descriptors : List MPDescriptor) : List (Nat × String) :=
  OSS.foldl
    (fun cs e =>
      descriptors.foldl
        (fun cs2 d =>
          let os := e.1 ++ strOsVersions d.low d.high
          if e.2 &&& d.osFlags ≠ 0 ∧ d.platform ∉ cs2.map Prod.fst ∧ os ∉ cs2.map Prod.snd
          then cs2 ++ [(d.platform, os)] else cs2)
        cs)
    []

/-- One iteration of the inner loop of the choice builder for a fixed
descriptor d and OSS entry e, named for the fold lemmas below. -/
def mpStep (d : MPDescriptor) (cs : List (Nat × String)) (e : String × Nat) :
    List (Nat × String) :=
  let os := e.1 ++ strOsVersions d.low d.high
  if e.2 &&& d.osFlags ≠ 0 ∧ d.platform ∉ cs.map Prod.fst ∧ os ∉ cs.map Prod.snd
  then cs ++ [(d.platform, os)] else cs

/-- Result of the multiplatform callback: the source returns [] when the
settable flag is clear, None when no choices were built, and a choices
validator otherwise. -/
inductive MPResult where
  | notSettable
  | noChoices
  | choices (cs : List (Nat × String))
  deriving DecidableEq

/-- _feature_multiplatform_callback from the header reply bytes and the
per-index descriptor replies: an empty header fails the assertion; flags and
the descriptor count are unpacked from the first three bytes (format !BBB); bit
0x02 of flags gates settability; each descriptor is unpacked from eight bytes
(format !BBHHH, big-endian). -/
def multiplatformCallback (infos : List Nat) (descReply : Nat → List Nat) :
    Except Unit MPResult :=
  if infos = [] then Except.error ()
  else
    let flags := infos.getD 0 0
    let num := infos.getD 2 0
    if flags &&& 0x02 = 0 then Except.ok MPResult.notSettable
    else
      let descriptors := (List.range num).map (fun i =>
        let d := descReply i
        MPDescriptor.mk (d.getD 0 0) (256 * d.getD 2 0 + d.getD 3 0)
          (256 * d.getD 4 0 + d.getD 5 0) (256 * d.getD 6 0 + d.getD 7 0))
      let cs := mpChoices descriptors
      Except.ok (if cs = [] then MPResult.noChoices else MPResult.choices cs)


theorem check_feature_eq_some (dev : Device) (r : Row) (probe : Probe) (s : SettingD)
    (h : check_feature dev r probe = some s) : s = ⟨r.name⟩ := by
  rcases hf : r.featureId with _ | f
  · simp only [check_feature, hf] at h
    exact Option.noConfusion h
  · simp only [check_feature, hf] at h
    by_cases hm : f ∈ dev.featureList
    · rw [if_pos hm] at h
      rcases hp : probe dev r <;> simp only [hp] at h
      · exact Option.noConfusion h
      · exact Option.noConfusion h
      · exact (Option.some.inj h).symm
    · rw [if_neg hm] at h
      exact Option.noConfusion h

theorem cfs_step_of_guard_false (dev : Device) (probe : Probe) (acc : List SettingD) (r : Row)
    (hg : ¬ (r.featureId.isSome && r.hasFeatureFn) = true) :
    cfs_step dev probe acc r = acc := by
  unfold cfs_step; rw [if_neg hg]

theorem cfs_step_of_skip (dev : Device) (probe : Probe) (acc : List SettingD) (r : Row)
    (hg : (r.featureId.isSome && r.hasFeatureFn) = true)
    (ha : acc.any (fun s => s.name == r.name) = true) :
    cfs_step dev probe acc r = acc := by
  unfold cfs_step; rw [if_pos hg, if_neg (by simp [ha])]

theorem cfs_step_of_none (dev : Device) (probe : Probe) (acc : List SettingD) (r : Row)
    (hg : (r.featureId.isSome && r.hasFeatureFn) = true)
    (ha : acc.any (fun s => s.name == r.name) = false)
    (hcf : check_feature dev r probe = none) :
    cfs_step dev probe acc r = acc := by
  unfold cfs_step; rw [if_pos hg, if_pos (by simp [ha]), hcf]

theorem cfs_step_of_some (dev : Device) (probe : Probe) (acc : List SettingD) (r : Row)
    (s : SettingD)
    (hg : (r.featureId.isSome && r.hasFeatureFn) = true)
    (ha : acc.any (fun s => s.name == r.name) = false)
    (hcf : check_feature dev r probe = some s) :
    cfs_step dev probe acc r = acc ++ [s] := by
  unfold cfs_step; rw [if_pos hg, if_pos (by simp [ha]), hcf]

theorem cfs_step_eq (dev : Device) (probe : Probe) (acc : List SettingD) (r : Row) :
    cfs_step dev probe acc r = acc ∨ cfs_step dev probe acc r = acc ++ [⟨r.name⟩] := by
  by_cases hg : (r.featureId.isSome && r.hasFeatureFn) = true
  · rcases ha : acc.any (fun s => s.name == r.name) with _ | _
    · rcases hcf : check_feature dev r probe with _ | s
      · exact Or.inl (cfs_step_of_none dev probe acc r hg ha hcf)
      · refine Or.inr ?_
        rw [cfs_step_of_some dev probe acc r s hg ha hcf,
          check_feature_eq_some dev r probe s hcf]
    · exact Or.inl (cfs_step_of_skip dev probe acc r hg ha)
  · exact Or.inl (cfs_step_of_guard_false dev probe acc r hg)

theorem mem_cfs_step (dev : Device) (probe : Probe) (acc : List SettingD) (r : Row)
    (s : SettingD) (h : s ∈ acc) : s ∈ cfs_step dev probe acc r := by
  rcases cfs_step_eq dev probe acc r with h' | h' <;> rw [h'] <;> simp [h]

theorem mem_cfs_loop (dev : Device) (probe : Probe) (s : SettingD) :
    ∀ (T : List Row) (acc : List SettingD), s ∈ acc → s ∈ cfs_loop dev probe T acc := by
  intro T
  induction T with
  | nil => intro acc h; exact h
  | cons r rs ih =>
    intro acc h
    simp only [cfs_loop]
    exact ih _ (mem_cfs_step dev probe acc r s h)

theorem cfs_loop_extends (dev : Device) (probe : Probe) :
    ∀ (T : List Row) (acc : List SettingD), ∃ t, cfs_loop dev probe T acc = acc ++ t := by
  intro T
  induction T with
  | nil => intro acc; exact ⟨[], by simp [cfs_loop]⟩
  | cons r rs ih =>
    intro acc
    simp only [cfs_loop]
    rcases cfs_step_eq dev probe acc r with h' | h' <;> rw [h']
    · exact ih acc
    · obtain ⟨t, ht⟩ := ih (acc ++ [⟨r.name⟩])
      exact ⟨⟨r.name⟩ :: t, by simpa using ht⟩

theorem cfs_step_absorb (dev : Device) (probe : Probe) (acc Z : List SettingD) (r : Row)
    (h : ∀ s ∈ cfs_step dev probe acc r, s ∈ Z) : cfs_step dev probe Z r = Z := by
  by_cases hg : (r.featureId.isSome && r.hasFeatureFn) = true
  · rcases hcf : check_feature dev r probe with _ | s
    · rcases ha : Z.any (fun t => t.name == r.name) with _ | _
      · exact cfs_step_of_none dev probe Z r hg ha hcf
      · exact cfs_step_of_skip dev probe Z r hg ha
    · have hs := check_feature_eq_some dev r probe s hcf
      subst hs
      have hmem : (⟨r.name⟩ : SettingD) ∈ Z := by
        rcases ha : acc.any (fun t => t.name == r.name) with _ | _
        · apply h
          rw [cfs_step_of_some dev probe acc r _ hg ha hcf]
          simp
        · obtain ⟨u, hu, he⟩ := List.any_eq_true.mp ha
          have hue : u = ⟨r.name⟩ := by
            cases u with
            | mk n =>
              simp only [beq_iff_eq] at he
              rw [he]
          exact h _ (hue ▸ mem_cfs_step dev probe acc r u hu)
      have hany : Z.any (fun t => t.name == r.name) = true :=
        List.any_eq_true.mpr ⟨⟨r.name⟩, hmem, by simp⟩
      exact cfs_step_of_skip dev probe Z r hg hany
  · exact cfs_step_of_guard_false dev probe Z r hg

theorem cfs_loop_idem (dev : Device) (probe : Probe) :
    ∀ (T : List Row) (acc : List SettingD),
      cfs_loop dev probe T (cfs_loop dev probe T acc) = cfs_loop dev probe T acc := by
  intro T
  induction T with
  | nil => intro acc; rfl
  | cons r rs ih =>
    intro acc
    simp only [cfs_loop]
    rw [cfs_step_absorb dev probe acc
      (cfs_loop dev probe rs (cfs_step dev probe acc r)) r
      (fun s hs => mem_cfs_loop dev probe s rs (cfs_step dev probe acc r) hs)]
    exact ih (cfs_step dev probe acc r)

theorem cfs_loop_congr (dev : Device) (p1 p2 : Probe)
    (h : ∀ r, check_feature dev r p1 = check_feature dev r p2) :
    ∀ (T : List Row) (acc : List SettingD),
      cfs_loop dev p1 T acc = cfs_loop dev p2 T acc := by
  intro T
  induction T with
  | nil => intro acc; rfl
  | cons r rs ih =>
    intro acc
    simp only [cfs_loop]
    have hstep : cfs_step dev p1 acc r = cfs_step dev p2 acc r := by
      unfold cfs_step; rw [h r]
    rw [hstep]
    exact ih (cfs_step dev p2 acc r)


theorem cfs_step_nodup (dev : Device) (probe : Probe) (acc : List SettingD) (r : Row)
    (h : (acc.map SettingD.name).Nodup) :
    ((cfs_step dev probe acc r).map SettingD.name).Nodup := by
  by_cases hg : (r.featureId.isSome && r.hasFeatureFn) = true
  · rcases ha : acc.any (fun s => s.name == r.name) with _ | _
    · rcases hcf : check_feature dev r probe with _ | s
      · rw [cfs_step_of_none dev probe acc r hg ha hcf]; exact h
      · rw [cfs_step_of_some dev probe acc r s hg ha hcf,
          check_feature_eq_some dev r probe s hcf]
        have hnotin : r.name ∉ acc.map SettingD.name := by
          intro hc
          obtain ⟨u, hu, hun⟩ := List.mem_map.mp hc
          have : acc.any (fun s => s.name == r.name) = true :=
            List.any_eq_true.mpr ⟨u, hu, by simp [hun]⟩
          rw [ha] at this
          exact Bool.noConfusion this
        simp only [List.map_append, List.map_cons, List.map_nil]
        exact List.Nodup.append h (List.nodup_singleton _)
          (by
            intro a haa hab
            simp only [List.mem_singleton] at hab
            exact hnotin (hab ▸ haa))
    · rw [cfs_step_of_skip dev probe acc r hg ha]; exact h
  · rw [cfs_step_of_guard_false dev probe acc r hg]; exact h

theorem cfs_loop_nodup (dev : Device) (probe : Probe) :
    ∀ (T : List Row) (acc : List SettingD), (acc.map SettingD.name).Nodup →
      ((cfs_loop dev probe T acc).map SettingD.name).Nodup := by
  intro T
  induction T with
  | nil => intro acc h; exact h
  | cons r rs ih =>
    intro acc h
    simp only [cfs_loop]
    exact ih _ (cfs_step_nodup dev probe acc r h)

theorem cfs_loop_probed (dev : Device) (probe : Probe) (r : Row) (f : FeatureId)
    (hf : r.featureId = some f) (hff : r.hasFeatureFn = true)
    (hm : f ∈ dev.featureList) (hp : probe dev r = ProbeOutcome.setting) :
    ∀ (T : List Row) (acc : List SettingD), r ∈ T →
      (⟨r.name⟩ : SettingD) ∈ cfs_loop dev probe T acc := by
  have hg : (r.featureId.isSome && r.hasFeatureFn) = true := by
    rw [hf, hff]; rfl
  have hcf : check_feature dev r probe = some ⟨r.name⟩ := by
    simp only [check_feature, hf, if_pos hm, hp]
  intro T
  induction T with
  | nil => intro acc hc; exact absurd hc (List.not_mem_nil r)
  | cons r0 rs ih =>
    intro acc hc
    simp only [cfs_loop]
    rcases List.mem_cons.mp hc with h0 | h0
    · subst h0
      rcases ha : acc.any (fun s => s.name == r.name) with _ | _
      · rw [cfs_step_of_some dev probe acc r _ hg ha hcf]
        exact mem_cfs_loop dev probe _ rs _ (by simp)
      · obtain ⟨u, hu, he⟩ := List.any_eq_true.mp ha
        have hue : u = ⟨r.name⟩ := by
          cases u with
          | mk n =>
            simp only [beq_iff_eq] at he
            rw [he]
        exact mem_cfs_loop dev probe _ rs _
          (hue ▸ mem_cfs_step dev probe acc r u hu)
    · exact ih _ h0


theorem cfs_loop_two (dev : Device) (probe : Probe) (A C : Row) (fa fc : FeatureId)
    (hAf : A.featureId = some fa) (hCf : C.featureId = some fc)
    (hAff : A.hasFeatureFn = true) (hCff : C.hasFeatureFn = true)
    (hfa : fa ∈ dev.featureList) (hfc : fc ∈ dev.featureList)
    (hname : A.name ≠ C.name)
    (hprobe : ∀ r, probe dev r = ProbeOutcome.setting) :
    ∀ (T : List Row), T.Nodup →
      (∀ r ∈ T, r.hasFeatureFn = true →
        ∀ g ∈ dev.featureList, r.featureId = some g → r = A ∨ r = C) →
      ∀ (acc : List SettingD),
        (∀ s ∈ acc, ∀ r ∈ T, (r = A ∨ r = C) → s.name ≠ r.name) →
        cfs_loop dev probe T acc =
          acc ++ (T.filter (fun r => decide (r = A) || decide (r = C))).map
            (fun r => (⟨r.name⟩ : SettingD)) := by
  have hcfA : check_feature dev A probe = some ⟨A.name⟩ := by
    simp only [check_feature, hAf, if_pos hfa, hprobe A]
  have hcfC : check_feature dev C probe = some ⟨C.name⟩ := by
    simp only [check_feature, hCf, if_pos hfc, hprobe C]
  have hgA : (A.featureId.isSome && A.hasFeatureFn) = true := by rw [hAf, hAff]; rfl
  have hgC : (C.featureId.isSome && C.hasFeatureFn) = true := by rw [hCf, hCff]; rfl
  intro T
  induction T with
  | nil =>
    intro _ _ acc _
    simp [cfs_loop]
  | cons r0 rs ih =>
    intro hnd honly acc hinv
    obtain ⟨hr0, hndrs⟩ := List.nodup_cons.mp hnd
    simp only [cfs_loop]
    by_cases hA : r0 = A
    · subst hA
      have ha : acc.any (fun s => s.name == r0.name) = false := by
        rw [List.any_eq_false]
        intro s hs
        simp only [beq_iff_eq]
        exact hinv s hs r0 (List.mem_cons_self r0 rs) (Or.inl rfl)
      rw [cfs_step_of_some dev probe acc r0 _ hgA ha hcfA]
      have honly2 : ∀ r ∈ rs, r.hasFeatureFn = true →
          ∀ g ∈ dev.featureList, r.featureId = some g → r = r0 ∨ r = C :=
        fun r hr hff g hg hfg => honly r (List.mem_cons_of_mem r0 hr) hff g hg hfg
      have hinv2 : ∀ s ∈ acc ++ [(⟨r0.name⟩ : SettingD)], ∀ r ∈ rs,
          (r = r0 ∨ r = C) → s.name ≠ r.name := by
        intro s hs r hr hrAC
        rcases List.mem_append.mp hs with hs1 | hs1
        · exact hinv s hs1 r (List.mem_cons_of_mem r0 hr) hrAC
        · have hsn : s = (⟨r0.name⟩ : SettingD) := by simpa using hs1
          subst hsn
          rcases hrAC with h1 | h1
          · exact absurd (h1 ▸ hr) hr0
          · subst h1
            exact hname
      have heq := ih hndrs honly2 (acc ++ [(⟨r0.name⟩ : SettingD)]) hinv2
      rw [heq]
      simp [List.filter_cons, List.append_assoc]
    · by_cases hC : r0 = C
      · subst hC
        have ha : acc.any (fun s => s.name == r0.name) = false := by
          rw [List.any_eq_false]
          intro s hs
          simp only [beq_iff_eq]
          exact hinv s hs r0 (List.mem_cons_self r0 rs) (Or.inr rfl)
        rw [cfs_step_of_some dev probe acc r0 _ hgC ha hcfC]
        have honly2 : ∀ r ∈ rs, r.hasFeatureFn = true →
            ∀ g ∈ dev.featureList, r.featureId = some g → r = A ∨ r = r0 :=
          fun r hr hff g hg hfg => honly r (List.mem_cons_of_mem r0 hr) hff g hg hfg
        have hinv2 : ∀ s ∈ acc ++ [(⟨r0.name⟩ : SettingD)], ∀ r ∈ rs,
            (r = A ∨ r = r0) → s.name ≠ r.name := by
          intro s hs r hr hrAC
          rcases List.mem_append.mp hs with hs1 | hs1
          · exact hinv s hs1 r (List.mem_cons_of_mem r0 hr) hrAC
          · have hsn : s = (⟨r0.name⟩ : SettingD) := by simpa using hs1
            subst hsn
            rcases hrAC with h1 | h1
            · subst h1
              exact fun hc => hname hc.symm
            · exact absurd (h1 ▸ hr) hr0
        have heq := ih hndrs honly2 (acc ++ [(⟨r0.name⟩ : SettingD)]) hinv2
        rw [heq]
        simp [List.filter_cons, List.append_assoc]
      · have hstep : cfs_step dev probe acc r0 = acc := by
          by_cases hg : (r0.featureId.isSome && r0.hasFeatureFn) = true
          · simp only [Bool.and_eq_true] at hg
            obtain ⟨hg1, hff⟩ := hg
            rcases hfid : r0.featureId with _ | g
            · rw [hfid] at hg1
              exact absurd hg1 (by simp)
            · have hgm : g ∉ dev.featureList := by
                intro hgm
                rcases honly r0 (List.mem_cons_self r0 rs) hff g hgm hfid with h1 | h1
                · exact hA h1
                · exact hC h1
              have hcf : check_feature dev r0 probe = none := by
                simp only [check_feature, hfid, if_neg hgm]
              have hg2 : (r0.featureId.isSome && r0.hasFeatureFn) = true := by
                rw [hfid, hff]; rfl
              rcases ha : acc.any (fun s => s.name == r0.name) with _ | _
              · exact cfs_step_of_none dev probe acc r0 hg2 ha hcf
              · exact cfs_step_of_skip dev probe acc r0 hg2 ha
          · exact cfs_step_of_guard_false dev probe acc r0 hg
        rw [hstep]
        have hfilter : List.filter (fun r => decide (r = A) || decide (r = C)) (r0 :: rs) =
            List.filter (fun r => decide (r = A) || decide (r = C)) rs := by
          simp [List.filter_cons, hA, hC]
        rw [hfilter]
        exact ih hndrs
          (fun r hr hff g hg hfg => honly r (List.mem_cons_of_mem r0 hr) hff g hg hfg)
          acc
          (fun s hs r hr hrAC => hinv s hs r (List.mem_cons_of_mem r0 hr) hrAC)


/-- C1 (amended): for Catalog rows A and C with distinct display names whose
feature identifiers are advertised, when no other feature row identifier is
advertised and all probes succeed, negotiation from an empty list yields
exactly the settings of A and C, in Catalog row order. -/
theorem negotiation_two_rows (dev : Device) (probe : Probe) (A C : Row) (fa fc : FeatureId)
    (hg1 : dev.featuresOpt ≠ none) (hg2 : dev.online = true)
    (hg3 : protocolBlocks dev.protocol = false)
    (hAf : A.featureId = some fa) (hCf : C.featureId = some fc)
    (hAff : A.hasFeatureFn = true) (hCff : C.hasFeatureFn = true)
    (hfa : fa ∈ dev.featureList) (hfc : fc ∈ dev.featureList)
    (hname : A.name ≠ C.name)
    (honly : ∀ r ∈ SETTINGS_TABLE, r.hasFeatureFn = true →
      ∀ g ∈ dev.featureList, r.featureId = some g → r = A ∨ r = C)
    (hprobe : ∀ r, probe dev r = ProbeOutcome.setting) :
    check_feature_settings dev probe [] =
      (true, (SETTINGS_TABLE.filter (fun r => decide (r = A) || decide (r = C))).map
        (fun r => (⟨r.name⟩ : SettingD))) := by
  have hgate : ¬ (dev.featuresOpt = none ∨ dev.online = false) := by
    rintro (h | h)
    · exact hg1 h
    · rw [hg2] at h
      exact Bool.noConfusion h
  unfold check_feature_settings
  rw [if_neg hgate, if_neg (by simp [hg3])]
  rw [cfs_loop_two dev probe A C fa fc hAf hCf hAff hCff hfa hfc hname hprobe
    SETTINGS_TABLE (by decide) honly [] (by simp)]
  simp

/-- C1 counterexample: with A the hires-smooth-invert row, B the
lowres-smooth-scroll row and C the smart-shift row, a device advertising
exactly the features of A and C (HIRES_WHEEL and SMART_SHIFT, without the
LOWRES_WHEEL feature of B) yields three settings, because the hires-smooth-resolution row
shares the feature identifier of A — not settings for A and C only. -/
theorem negotiation_two_rows_counterexample :
    check_feature_settings ⟨some [FeatureId.HIRES_WHEEL, FeatureId.SMART_SHIFT], true, none⟩
        probeAll [] =
      (true, [⟨"hires-smooth-invert"⟩, ⟨"hires-smooth-resolution"⟩, ⟨"smart-shift"⟩]) ∧
    ((check_feature_settings ⟨some [FeatureId.HIRES_WHEEL, FeatureId.SMART_SHIFT], true, none⟩
        probeAll []).2).length = 3 := by
  constructor
  · decide
  · decide

theorem negotiation_two_rows_witness :
    check_feature_settings ⟨some [FeatureId.FN_INVERSION, FeatureId.SMART_SHIFT], true, none⟩
        probeAll [] = (true, [⟨"fn-swap"⟩, ⟨"smart-shift"⟩]) := by
  have h := negotiation_two_rows
    ⟨some [FeatureId.FN_INVERSION, FeatureId.SMART_SHIFT], true, none⟩ probeAll
    ⟨"fn-swap", some FeatureId.FN_INVERSION, true, true, "fn_swap"⟩
    ⟨"smart-shift", some FeatureId.SMART_SHIFT, false, true, "smart_shift"⟩
    FeatureId.FN_INVERSION FeatureId.SMART_SHIFT
    (by decide) rfl rfl rfl rfl rfl rfl (by decide) (by decide) (by decide)
    (by decide) (fun r => rfl)
  exact h.trans (by decide)

/-- C2: a row whose constructor raises is caught inside check_feature (the
result is no setting and the feature id is logged), and check_feature_settings
behaves exactly as if the constructor of that row had returned no setting, so
every other applicable row still produces its setting and no exception reaches
the caller. -/
theorem constructor_exception_isolated (dev : Device) (probe : Probe) (l : List SettingD)
    (r : Row) (f : FeatureId) (hexn : probe dev r = ProbeOutcome.exn) :
    check_feature dev r probe = none ∧
    (r.featureId = some f → f ∈ dev.featureList →
      check_feature_error dev r probe = some f) ∧
    check_feature_settings dev probe l =
      check_feature_settings dev
        (fun d r2 => if r2 = r then ProbeOutcome.noSetting else probe d r2) l := by
  refine ⟨?_, ?_, ?_⟩
  · rcases hf : r.featureId with _ | g
    · simp [check_feature, hf]
    · by_cases hm : g ∈ dev.featureList
      · simp [check_feature, hf, if_pos hm, hexn]
      · simp [check_feature, hf, if_neg hm]
  · intro hf hm
    simp [check_feature_error, hf, if_pos hm, hexn]
  · have hcong : ∀ r2, check_feature dev r2 probe =
        check_feature dev r2
          (fun d r3 => if r3 = r then ProbeOutcome.noSetting else probe d r3) := by
      intro r2
      by_cases h2 : r2 = r
      · subst h2
        rcases hf : r2.featureId with _ | g
        · simp [check_feature, hf]
        · by_cases hm : g ∈ dev.featureList
          · simp [check_feature, hf, if_pos hm, hexn]
          · simp [check_feature, hf, if_neg hm]
      · rcases hf : r2.featureId with _ | g
        · simp [check_feature, hf]
        · by_cases hm : g ∈ dev.featureList
          · simp [check_feature, hf, if_pos hm, if_neg h2]
          · simp [check_feature, hf, if_neg hm]
    unfold check_feature_settings
    rw [cfs_loop_congr dev probe _ hcong SETTINGS_TABLE l]

theorem constructor_exception_isolated_witness :
    check_feature
      ⟨some [FeatureId.FN_INVERSION, FeatureId.SMART_SHIFT], true, none⟩
      ⟨"smart-shift", some FeatureId.SMART_SHIFT, false, true, "smart_shift"⟩
      (fun _ r => if r.key = "smart_shift" then ProbeOutcome.exn else ProbeOutcome.setting)
        = none ∧
    check_feature_error
      ⟨some [FeatureId.FN_INVERSION, FeatureId.SMART_SHIFT], true, none⟩
      ⟨"smart-shift", some FeatureId.SMART_SHIFT, false, true, "smart_shift"⟩
      (fun _ r => if r.key = "smart_shift" then ProbeOutcome.exn else ProbeOutcome.setting)
        = some FeatureId.SMART_SHIFT ∧
    check_feature_settings
      ⟨some [FeatureId.FN_INVERSION, FeatureId.SMART_SHIFT], true, none⟩
      (fun _ r => if r.key = "smart_shift" then ProbeOutcome.exn else ProbeOutcome.setting) [] =
      (true, [⟨"fn-swap"⟩]) := by
  have h := constructor_exception_isolated
    ⟨some [FeatureId.FN_INVERSION, FeatureId.SMART_SHIFT], true, none⟩
    (fun _ r => if r.key = "smart_shift" then ProbeOutcome.exn else ProbeOutcome.setting) []
    ⟨"smart-shift", some FeatureId.SMART_SHIFT, false, true, "smart_shift"⟩
    FeatureId.SMART_SHIFT (by decide)
  exact ⟨h.1, h.2.1 rfl (by decide), h.2.2.trans (by decide)⟩


theorem cfs_gates_pass (dev : Device) (probe : Probe) (l : List SettingD)
    (hg1 : dev.featuresOpt ≠ none) (hg2 : dev.online = true)
    (hg3 : protocolBlocks dev.protocol = false) :
    check_feature_settings dev probe l = (true, cfs_loop dev probe SETTINGS_TABLE l) := by
  have hgate : ¬ (dev.featuresOpt = none ∨ dev.online = false) := by
    rintro (h | h)
    · exact hg1 h
    · rw [hg2] at h
      exact Bool.noConfusion h
  unfold check_feature_settings
  rw [if_neg hgate, if_neg (by simp [hg3])]

theorem cfs_gates_pass_snd (dev : Device) (probe : Probe) (l : List SettingD)
    (hg1 : dev.featuresOpt ≠ none) (hg2 : dev.online = true)
    (hg3 : protocolBlocks dev.protocol = false) :
    (check_feature_settings dev probe l).2 = cfs_loop dev probe SETTINGS_TABLE l := by
  rw [cfs_gates_pass dev probe l hg1 hg2 hg3]

/-- C6 (amended): negotiation skips a Catalog row only when its display
name is already represented in the list: whenever the gates pass, a row whose
feature is advertised and whose probe yields a setting ends up represented by
display name in the result, and display names are never duplicated.  Variants
with distinct stable keys but the same display name (fn_swap, new_fn_swap,
k375s_fn_swap) are deduplicated by that display name, not by stable key. -/
theorem row_skip_by_display_name (dev : Device) (probe : Probe) (l : List SettingD)
    (r : Row) (f : FeatureId)
    (hg1 : dev.featuresOpt ≠ none) (hg2 : dev.online = true)
    (hg3 : protocolBlocks dev.protocol = false)
    (hr : r ∈ SETTINGS_TABLE) (hf : r.featureId = some f) (hff : r.hasFeatureFn = true)
    (hm : f ∈ dev.featureList) (hp : probe dev r = ProbeOutcome.setting) :
    (⟨r.name⟩ : SettingD) ∈ (check_feature_settings dev probe l).2 ∧
    ((l.map SettingD.name).Nodup →
      (((check_feature_settings dev probe l).2).map SettingD.name).Nodup) := by
  rw [cfs_gates_pass_snd dev probe l hg1 hg2 hg3]
  exact ⟨cfs_loop_probed dev probe r f hf hff hm hp SETTINGS_TABLE l hr,
    fun hnd => cfs_loop_nodup dev probe SETTINGS_TABLE l hnd⟩



/-- C6 counterexample: a device advertising FN_INVERSION and NEW_FN_INVERSION
starts with an empty list (so no stable key, in particular not new_fn_swap, is
represented), every probe succeeds, yet the result has a single entry: the
new_fn_swap row was skipped because the fn_swap row already produced a setting
with the same display name, even though the stable key new_fn_swap was absent
from the list and its feature identifier advertised. -/
theorem row_skip_by_display_name_counterexample :
    (check_feature_settings
      ⟨some [FeatureId.FN_INVERSION, FeatureId.NEW_FN_INVERSION], true, none⟩
      probeAll []).2 = [⟨"fn-swap"⟩] ∧
    ((check_feature_settings
      ⟨some [FeatureId.FN_INVERSION, FeatureId.NEW_FN_INVERSION], true, none⟩
      probeAll []).2).length = 1 := by
  constructor
  · decide
  · decide

theorem row_skip_by_display_name_witness :
    (⟨"fn-swap"⟩ : SettingD) ∈
      (check_feature_settings ⟨some [FeatureId.K375S_FN_INVERSION], true, none⟩
        probeAll []).2 ∧
    ((([] : List SettingD).map SettingD.name).Nodup →
      (((check_feature_settings ⟨some [FeatureId.K375S_FN_INVERSION], true, none⟩
        probeAll []).2).map SettingD.name).Nodup) :=
  row_skip_by_display_name ⟨some [FeatureId.K375S_FN_INVERSION], true, none⟩ probeAll []
    ⟨"fn-swap", some FeatureId.K375S_FN_INVERSION, false, true, "k375s_fn_swap"⟩
    FeatureId.K375S_FN_INVERSION (by decide) rfl rfl (by decide) rfl rfl (by decide) rfl

/-- C7: check_feature_settings is add-only (the input list is a prefix of the
output list) and idempotent: a second run on an unchanged device leaves the
list exactly equal to the result of the first run, duplicating and removing
nothing. -/
theorem negotiation_idempotent (dev : Device) (probe : Probe) (l : List SettingD) :
    (∃ t, (check_feature_settings dev probe l).2 = l ++ t) ∧
    check_feature_settings dev probe (check_feature_settings dev probe l).2 =
      check_feature_settings dev probe l := by
  by_cases h1 : dev.featuresOpt = none ∨ dev.online = false
  · have e : check_feature_settings dev probe l = (false, l) := by
      unfold check_feature_settings
      rw [if_pos h1]
    rw [e]
    have e2 : ((false, l) : Bool × List SettingD).2 = l := rfl
    rw [e2]
    exact ⟨⟨[], by simp⟩, e⟩
  · by_cases h2 : protocolBlocks dev.protocol = true
    · have e : check_feature_settings dev probe l = (false, l) := by
        unfold check_feature_settings
        rw [if_neg h1, if_pos h2]
      rw [e]
      have e2 : ((false, l) : Bool × List SettingD).2 = l := rfl
      rw [e2]
      exact ⟨⟨[], by simp⟩, e⟩
    · have hg1 : dev.featuresOpt ≠ none := fun hc => h1 (Or.inl hc)
      have hg2 : dev.online = true := by
        rcases hb : dev.online with _ | _
        · exact absurd (Or.inr hb) h1
        · rfl
      have hg3 : protocolBlocks dev.protocol = false := by
        rcases hb : protocolBlocks dev.protocol with _ | _
        · rfl
        · exact absurd hb h2
      rw [cfs_gates_pass_snd dev probe l hg1 hg2 hg3]
      refine ⟨cfs_loop_extends dev probe SETTINGS_TABLE l, ?_⟩
      rw [cfs_gates_pass dev probe (cfs_loop dev probe SETTINGS_TABLE l) hg1 hg2 hg3,
        cfs_gates_pass dev probe l hg1 hg2 hg3,
        cfs_loop_idem dev probe SETTINGS_TABLE l]

/-- C8 (amended): feature discovery is gated — missing feature metadata or an
offline device returns False without touching the list, and so does a device
reporting a nonzero protocol version below 2.0; but the gate only blocks a
truthy version below 2.0, so a device whose protocol version is unknown (or a
reported 0) passes the gate and is probed. -/
theorem protocol_gate (dev : Device) (probe : Probe) (l : List SettingD) (p : ℚ) :
    (dev.featuresOpt = none ∨ dev.online = false →
      check_feature_settings dev probe l = (false, l)) ∧
    (dev.protocol = some p → p ≠ 0 → p < 2 →
      check_feature_settings dev probe l = (false, l)) ∧
    ((check_feature_settings dev probe l).1 = true →
      dev.featuresOpt ≠ none ∧ dev.online = true ∧
      ∀ q, dev.protocol = some q → q = 0 ∨ 2 ≤ q) := by
  refine ⟨?_, ?_, ?_⟩
  · intro h1
    unfold check_feature_settings
    rw [if_pos h1]
  · intro hp hp0 hp2
    by_cases h1 : dev.featuresOpt = none ∨ dev.online = false
    · unfold check_feature_settings
      rw [if_pos h1]
    · have hb : protocolBlocks dev.protocol = true := by
        rw [hp]
        simp only [protocolBlocks]
        rw [if_pos ⟨hp0, hp2⟩]
      unfold check_feature_settings
      rw [if_neg h1, if_pos hb]
  · intro h
    by_cases h1 : dev.featuresOpt = none ∨ dev.online = false
    · exfalso
      unfold check_feature_settings at h
      rw [if_pos h1] at h
      exact Bool.noConfusion h
    · by_cases h2 : protocolBlocks dev.protocol = true
      · exfalso
        unfold check_feature_settings at h
        rw [if_neg h1, if_pos h2] at h
        exact Bool.noConfusion h
      · push_neg at h1
        refine ⟨h1.1, by simpa using h1.2, ?_⟩
        intro q hq
        rw [hq] at h2
        simp only [protocolBlocks] at h2
        by_cases hc : q ≠ 0 ∧ q < 2
        · rw [if_pos hc] at h2
          exact absurd rfl h2
        · rcases not_and_or.mp hc with hc1 | hc1
          · exact Or.inl (not_not.mp hc1)
          · exact Or.inr (not_lt.mp hc1)

/-- C8 counterexample: a device whose protocol version is unknown (None) is
probed and receives a setting, although its protocol version is not known to
be at least 2.0; so feature probing is not restricted to devices whose
protocol version is at least 2.0. -/
theorem protocol_gate_counterexample :
    check_feature_settings ⟨some [FeatureId.FN_INVERSION], true, none⟩ probeAll [] =
      (true, [⟨"fn-swap"⟩]) ∧
    (⟨some [FeatureId.FN_INVERSION], true, none⟩ : Device).protocol = none := by
  constructor
  · decide
  · rfl

theorem protocol_gate_witness :
    check_feature_settings ⟨none, true, none⟩ probeAll [] = (false, []) ∧
    check_feature_settings ⟨some [FeatureId.FN_INVERSION], true, some 1⟩ probeAll [] =
      (false, []) :=
  ⟨(protocol_gate ⟨none, true, none⟩ probeAll [] 1).1 (Or.inl rfl),
   (protocol_gate ⟨some [FeatureId.FN_INVERSION], true, some 1⟩ probeAll [] 1).2.1
     rfl (by decide) (by decide)⟩



theorem step_ne_zero (v : Nat) (h : v >>> 13 = 7) : v ≠ 0 := by
  intro h0
  subst h0
  simp at h

theorem dpiLoop_literals :
    ∀ (pre vs dl : List Nat) (st : Option Nat),
      (∀ v ∈ pre, v ≠ 0 ∧ v >>> 13 ≠ 7) →
      dpiLoop (pre ++ vs) dl st = dpiLoop vs (dl ++ pre) st := by
  intro pre
  induction pre with
  | nil =>
    intro vs dl st _
    simp
  | cons v pre ih =>
    intro vs dl st h
    obtain ⟨hv0, hv7⟩ := h v (List.mem_cons_self v pre)
    show dpiLoop (v :: (pre ++ vs)) dl st = dpiLoop vs (dl ++ v :: pre) st
    simp only [dpiLoop]
    rw [if_neg hv0, if_neg hv7,
      ih vs (dl ++ [v]) st (fun x hx => h x (List.mem_cons_of_mem v hx))]
    simp

/-- C3: the smart-shift writer encodes threshold 0 as (1, 0, 0), threshold 50
as (2, 255, 255) and any other threshold v in range as (2, v, v); the reader
maps mode byte 1 to 0 and any other mode to the threshold byte capped at 50;
consequently read after write is the identity on [0, 50]. -/
theorem smart_shift_round_trip (v m t u : Nat) :
    smartShiftWrite 0 = (1, 0, 0) ∧
    smartShiftWrite 50 = (2, 255, 255) ∧
    (0 < v → v < 50 → smartShiftWrite v = (2, v, v)) ∧
    smartShiftRead (1, t, u) = 0 ∧
    (m ≠ 1 → smartShiftRead (m, t, u) = min t 50) ∧
    (v ≤ 50 → smartShiftRead (smartShiftWrite v) = v) := by
  refine ⟨rfl, rfl, ?_, rfl, ?_, ?_⟩
  · intro h1 h2
    unfold smartShiftWrite
    rw [if_neg (by omega), if_neg (by omega)]
  · intro hm
    unfold smartShiftRead
    rw [if_neg hm]
  · intro hv
    by_cases h0 : v = 0
    · subst h0
      rfl
    · by_cases h50 : v = 50
      · subst h50
        rfl
      · have hw : smartShiftWrite v = (2, v, v) := by
          unfold smartShiftWrite
          rw [if_neg h0, if_neg h50]
        have hr : smartShiftRead (2, v, v) = min v 50 := by
          unfold smartShiftRead
          split
          · rename_i hcond
            simp at hcond
          · rfl
        rw [hw, hr]
        omega

theorem smart_shift_round_trip_witness :
    smartShiftWrite 25 = (2, 25, 25) ∧ smartShiftRead (2, 60, 9) = 50 ∧
    smartShiftRead (smartShiftWrite 25) = 25 := by
  obtain ⟨-, -, h3, -, h5, h6⟩ := smart_shift_round_trip 25 2 60 9
  exact ⟨h3 (by decide) (by decide), (h5 (by decide)).trans (by decide), h6 (by decide)⟩

/-- C4: the resolver reads exactly 7 big-endian 16-bit words; the literal pair
800, 3200 with step 200 expands to the 13 choices 800, 1000, ..., 3200; and a
zero-terminated word list containing no step value yields exactly the literals
collected before the terminator. -/
theorem dpi_list_resolution (reply pre rest : List Nat) :
    (words7 reply).length = 7 ∧
    adjustableDpiCallback [1, 3, 32, 224, 200, 12, 128, 0, 0, 0, 0, 0, 0, 0, 0] =
      Except.ok (some [800, 1000, 1200, 1400, 1600, 1800, 2000, 2200, 2400,
        2600, 2800, 3000, 3200]) ∧
    ((∀ v ∈ pre, v ≠ 0 ∧ v >>> 13 ≠ 7) →
      parseDpiList (pre ++ 0 :: rest) = Except.ok pre) := by
  refine ⟨by simp [words7], rfl, ?_⟩
  intro h
  unfold parseDpiList
  rw [dpiLoop_literals pre (0 :: rest) [] none h]
  simp [dpiLoop, dpiPostprocess]

theorem dpi_list_resolution_witness :
    parseDpiList ([500, 900] ++ 0 :: [7]) = Except.ok [500, 900] :=
  (dpi_list_resolution [] [500, 900] [7]).2.2 (by decide)



theorem dpiLoop_cons (v : Nat) (vs dl : List Nat) (st : Option Nat) :
    dpiLoop (v :: vs) dl st =
      if v = 0 then Except.ok (dl, st)
      else if v >>> 13 = 7 then
        if st = none ∧ dl.length = 1 then dpiLoop vs dl (some (v &&& 0x1fff))
        else Except.error ()
      else dpiLoop vs (dl ++ [v]) st := rfl

/-- C5: a step value encountered when the collected-literal count is not one,
a second step value, or a truthy step with a final literal count other than
two, all make the DPI-list resolver fail loudly (an assertion error) rather
than return a truncated list; and such a constructor exception is converted by
the engine into no setting for that row (check_feature returns none). -/
theorem dpi_step_inconsistency_fails (pre mid rest : List Nat) (v a s1 s2 : Nat)
    (dev : Device) (r : Row) (probe : Probe) :
    ((∀ x ∈ pre, x ≠ 0 ∧ x >>> 13 ≠ 7) → v >>> 13 = 7 → pre.length ≠ 1 →
      parseDpiList (pre ++ v :: rest) = Except.error ()) ∧
    (a ≠ 0 → a >>> 13 ≠ 7 → s1 >>> 13 = 7 → (∀ x ∈ mid, x ≠ 0 ∧ x >>> 13 ≠ 7) →
      s2 >>> 13 = 7 →
      parseDpiList (a :: s1 :: (mid ++ s2 :: rest)) = Except.error ()) ∧
    (a ≠ 0 → a >>> 13 ≠ 7 → s1 >>> 13 = 7 → s1 &&& 8191 ≠ 0 →
      (∀ x ∈ mid, x ≠ 0 ∧ x >>> 13 ≠ 7) → mid.length ≠ 1 →
      parseDpiList (a :: s1 :: (mid ++ 0 :: rest)) = Except.error ()) ∧
    (probe dev r = ProbeOutcome.exn → check_feature dev r probe = none) := by
  refine ⟨?_, ?_, ?_, ?_⟩
  · intro h hv hlen
    unfold parseDpiList
    rw [dpiLoop_literals pre (v :: rest) [] none h, dpiLoop_cons]
    rw [if_neg (step_ne_zero v hv), if_pos hv,
      if_neg (fun hc => hlen hc.2)]
  · intro ha0 ha7 hs1 hmid hs2
    unfold parseDpiList
    show (match dpiLoop ([a] ++ (s1 :: (mid ++ s2 :: rest))) [] none with
      | Except.error e => Except.error e
      | Except.ok r => dpiPostprocess r) = Except.error ()
    rw [dpiLoop_literals [a] (s1 :: (mid ++ s2 :: rest)) [] none
      (by simp [ha0, ha7])]
    rw [dpiLoop_cons]
    rw [if_neg (step_ne_zero s1 hs1), if_pos hs1, if_pos ⟨rfl, rfl⟩]
    rw [dpiLoop_literals mid (s2 :: rest) ([] ++ [a]) (some (s1 &&& 8191)) hmid]
    rw [dpiLoop_cons]
    rw [if_neg (step_ne_zero s2 hs2), if_pos hs2,
      if_neg (fun hc => Option.noConfusion hc.1)]
  · intro ha0 ha7 hs1 hst hmid hlen
    unfold parseDpiList
    show (match dpiLoop ([a] ++ (s1 :: (mid ++ 0 :: rest))) [] none with
      | Except.error e => Except.error e
      | Except.ok r => dpiPostprocess r) = Except.error ()
    rw [dpiLoop_literals [a] (s1 :: (mid ++ 0 :: rest)) [] none
      (by simp [ha0, ha7])]
    rw [dpiLoop_cons]
    rw [if_neg (step_ne_zero s1 hs1), if_pos hs1, if_pos ⟨rfl, rfl⟩]
    rw [dpiLoop_literals mid (0 :: rest) ([] ++ [a]) (some (s1 &&& 8191)) hmid]
    rw [dpiLoop_cons]
    rw [if_pos rfl]
    show dpiPostprocess ([] ++ [a] ++ mid, some (s1 &&& 8191)) = Except.error ()
    simp only [dpiPostprocess, List.nil_append]
    rw [if_neg hst]
    rcases mid with _ | ⟨x, xs⟩
    · rfl
    · rcases xs with _ | ⟨y, ys⟩
      · exact absurd rfl hlen
      · rfl
  · intro hexn
    rcases hf : r.featureId with _ | g
    · simp [check_feature, hf]
    · by_cases hm : g ∈ dev.featureList
      · simp [check_feature, hf, if_pos hm, hexn]
      · simp [check_feature, hf, if_neg hm]

theorem dpi_step_inconsistency_fails_witness :
    parseDpiList ([] ++ 57544 :: [800]) = Except.error () ∧
    parseDpiList (800 :: 57544 :: ([] ++ 57545 :: [])) = Except.error () ∧
    parseDpiList (800 :: 57544 :: ([] ++ 0 :: [])) = Except.error () ∧
    check_feature ⟨some [FeatureId.ADJUSTABLE_DPI], true, none⟩
      ⟨"dpi", some FeatureId.ADJUSTABLE_DPI, true, true, "dpi"⟩
      (fun _ _ => ProbeOutcome.exn) = none := by
  obtain ⟨h1, h2, h3, h4⟩ := dpi_step_inconsistency_fails [] [] [800] 57544 800 57544 57545
    ⟨some [FeatureId.ADJUSTABLE_DPI], true, none⟩
    ⟨"dpi", some FeatureId.ADJUSTABLE_DPI, true, true, "dpi"⟩
    (fun _ _ => ProbeOutcome.exn)
  exact ⟨h1 (by decide) (by decide) (by decide),
    h2 (by decide) (by decide) (by decide) (by decide) (by decide),
    h3 (by decide) (by decide) (by decide) (by decide) (by decide) (by decide),
    h4 rfl⟩

/-- C10: a step-marked word 0xE000 (zero step) arriving after exactly one
literal passes the loop assertions, and because the Python truthiness test
`if step:` is false for 0, no expansion and no length-two assertion happen:
the resolver returns exactly the literals collected, signalling nothing. -/
theorem dpi_zero_step_ignored (a : Nat) (mid rest : List Nat)
    (ha0 : a ≠ 0) (ha7 : a >>> 13 ≠ 7)
    (hmid : ∀ x ∈ mid, x ≠ 0 ∧ x >>> 13 ≠ 7) :
    parseDpiList (a :: 57344 :: (mid ++ 0 :: rest)) = Except.ok (a :: mid) := by
  unfold parseDpiList
  show (match dpiLoop ([a] ++ (57344 :: (mid ++ 0 :: rest))) [] none with
    | Except.error e => Except.error e
    | Except.ok r => dpiPostprocess r) = Except.ok (a :: mid)
  rw [dpiLoop_literals [a] (57344 :: (mid ++ 0 :: rest)) [] none
    (by simp [ha0, ha7])]
  rw [dpiLoop_cons]
  rw [if_neg (by decide : (57344 : Nat) ≠ 0), if_pos (by decide : (57344 : Nat) >>> 13 = 7),
    if_pos ⟨rfl, rfl⟩]
  rw [dpiLoop_literals mid (0 :: rest) ([] ++ [a]) (some (57344 &&& 8191)) hmid]
  rw [dpiLoop_cons]
  rw [if_pos rfl]
  show dpiPostprocess ([] ++ [a] ++ mid, some (57344 &&& 8191)) = Except.ok (a :: mid)
  rw [show (57344 &&& 8191 : Nat) = 0 from by decide]
  simp [dpiPostprocess]

theorem dpi_zero_step_ignored_witness :
    parseDpiList (800 :: 57344 :: ([1600] ++ 0 :: [])) = Except.ok (800 :: [1600]) :=
  dpi_zero_step_ignored 800 [1600] [] (by decide) (by decide) (by decide)



theorem mpChoices_single (d : MPDescriptor) :
    mpChoices [d] = OSS.foldl (mpStep d) [] := rfl

theorem mpStep_skip (d : MPDescriptor) (cs : List (Nat × String)) (e : String × Nat)
    (h : d.platform ∈ cs.map Prod.fst) : mpStep d cs e = cs := by
  unfold mpStep
  rw [if_neg]
  rintro ⟨-, h2, -⟩
  exact h2 h

theorem mp_foldl_skip (d : MPDescriptor) :
    ∀ (L : List (String × Nat)) (cs : List (Nat × String)),
      d.platform ∈ cs.map Prod.fst → L.foldl (mpStep d) cs = cs := by
  intro L
  induction L with
  | nil => intro cs _; rfl
  | cons e L ih =>
    intro cs h
    simp only [List.foldl_cons]
    rw [mpStep_skip d cs e h]
    exact ih cs h

theorem mp_foldl_first (d : MPDescriptor) :
    ∀ (L : List (String × Nat)) (e0 : String × Nat),
      L.find? (fun e => decide (e.2 &&& d.osFlags ≠ 0)) = some e0 →
      L.foldl (mpStep d) [] = [(d.platform, e0.1 ++ strOsVersions d.low d.high)] := by
  intro L
  induction L with
  | nil => intro e0 h; simp at h
  | cons e L ih =>
    intro e0 h
    by_cases hb : e.2 &&& d.osFlags ≠ 0
    · rw [List.find?_cons_of_pos _ (by simpa using hb)] at h
      have he : e = e0 := Option.some.inj h
      subst he
      simp only [List.foldl_cons]
      have hstep : mpStep d [] e = [(d.platform, e.1 ++ strOsVersions d.low d.high)] := by
        unfold mpStep
        rw [if_pos ⟨hb, by simp, by simp⟩]
        rfl
      rw [hstep]
      exact mp_foldl_skip d L _ (by simp)
    · rw [List.find?_cons_of_neg _ (by simpa using hb)] at h
      simp only [List.foldl_cons]
      have hstep : mpStep d [] e = [] := by
        unfold mpStep
        rw [if_neg (fun hc => hb hc.1)]
      rw [hstep]
      exact ih e0 h

/-- C9 (amended): for a single descriptor whose OS-flag bitmap matches exactly
two entries of the OSS table, the callback produces exactly one choice — the
first matching OSS entry in table order, paired with the platform id of the
descriptor — because a choice is skipped when its platform id or its
formatted string is already present, and a single descriptor has one platform
id; two choices require two descriptors. -/
theorem multiplatform_single_descriptor (d : MPDescriptor) (e0 : String × Nat)
    (hfind : OSS.find? (fun e => decide (e.2 &&& d.osFlags ≠ 0)) = some e0)
    (_htwo : (OSS.filter (fun e => decide (e.2 &&& d.osFlags ≠ 0))).length = 2) :
    mpChoices [d] = [(d.platform, e0.1 ++ strOsVersions d.low d.high)] := by
  rw [mpChoices_single]
  exact mp_foldl_first d OSS e0 hfind

/-- C9 counterexample: a settable multiplatform reply with a single descriptor
whose bitmap 0x2400 matches the two OSS entries Linux (0x0400) and MacOS
(0x2000) yields exactly one choice, (platform 0, "Linux"), not two choices as
claimed: the MacOS iteration is skipped because platform 0 is already
present. -/
theorem multiplatform_single_descriptor_counterexample :
    multiplatformCallback [2, 0, 1] (fun _ => [0, 0, 36, 0, 0, 0, 0, 0]) =
      Except.ok (MPResult.choices [(0, "Linux")]) ∧
    ([((0 : Nat), "Linux")] : List (Nat × String)).length = 1 ∧
    (OSS.filter (fun e => decide (e.2 &&& 0x2400 ≠ 0))).length = 2 := by
  refine ⟨rfl, rfl, by decide⟩

theorem multiplatform_single_descriptor_witness :
    mpChoices [⟨0, 0x2400, 0, 0⟩] = [(0, "Linux" ++ strOsVersions 0 0)] :=
  multiplatform_single_descriptor ⟨0, 0x2400, 0, 0⟩ ("Linux", 0x0400)
    (by decide) (by decide)

end Solaar
